import Mathlib

/-! Verification of the Zenmius Encrypted Vault and Git-Backed Sync Engine.

A shallow embedding of the core of `src/main/vault-manager.ts`,
`src/main/git-manager.ts` and `src/main/db-manager.ts`.

The libsodium authenticated-encryption primitives (`crypto_secretbox_easy`,
`crypto_secretbox_open_easy`, `crypto_pwhash`) are external library calls;
they are embedded symbolically: an encryption records the key and the
plaintext inside the ciphertext term, and opening succeeds exactly when the
same key is presented.  Everything the repository's own code does around
those calls (state, control flow, error strings, file writes, ordering) is
translated directly from the TypeScript source.
-/

namespace Zenmius

/-! ## Key derivation (vault-manager.ts, `getSalt` / `crypto_pwhash`)

A `Salt` is the random value persisted in `vault_meta.json`; we identify a
salt by the draw of `randombytes_buf` that produced it.  `derive` is the
symbolic counterpart of `crypto_pwhash(KEYBYTES, password, salt, …)`:
deterministic in `(password, salt)`. -/

structure Salt where
  val : Nat
deriving DecidableEq, Repr

structure MasterKey where
  password : String
  salt : Salt
deriving DecidableEq, Repr

/-- The `crypto_pwhash` call as used in the `vault:init` and `vault:change-password`
handlers: a deterministic function of the password and the salt. -/
def derive (password : String) (salt : Salt) : MasterKey :=
  ⟨password, salt⟩

/-! ## Authenticated codec (vault-manager.ts `encryptData` / `decryptData`)

`EncryptedEnvelope α` is the `{ nonce, ciphertext }` JSON object written to
disk; symbolically the ciphertext is the pair (key, plaintext), and the
authenticated open checks the key. -/

structure EncryptedEnvelope (α : Type) where
  nonce : Nat
  encKey : MasterKey
  plaintext : α
deriving DecidableEq, Repr

/-- The function `encryptData(data)` (vault-manager.ts lines 23–43): requires the vault to
be unlocked, draws a fresh `nonce`, seals `data` under the in-memory master
key.  The nonce draw is passed in explicitly. -/
def encryptData (masterKey : Option MasterKey) (nonce : Nat) (data : α) :
    Except String (EncryptedEnvelope α) :=
  match masterKey with
  | none => .error "Vault Locked"
  | some key => .ok ⟨nonce, key, data⟩

/-- The function `decryptData(payload)` (vault-manager.ts lines 72–89): requires the vault
to be unlocked; `crypto_secretbox_open_easy` succeeds only under the sealing
key, and its failure is surfaced as an error (the `catch`), never as a
success carrying plaintext. -/
def decryptData (masterKey : Option MasterKey) (env : EncryptedEnvelope α) :
    Except String α :=
  match masterKey with
  | none => .error "Vault Locked"
  | some key =>
    if env.encKey = key then .ok env.plaintext
    else .error "Decryption Failed"

/-! ## Vault documents and the on-disk vault file

`vault.json` holds one `EncryptedEnvelope` of the JSON-serialised vault
document.  The code only ever materialises two document shapes: the default
empty array `[]` (`decryptVault` on a missing/empty file) and an object with
a `hosts` map (`vault:save-credential`). -/

structure Credential where
  username : String
  password : String
  updatedAt : String
deriving DecidableEq, Repr

inductive VaultDoc where
  /-- the JSON array `[]` returned by `decryptVault` when no file exists -/
  | emptyArr : VaultDoc
  /-- a JSON object with a `hosts` map, `hostId → credential` -/
  | objDoc (hosts : List (String × Credential)) : VaultDoc
deriving DecidableEq, Repr

/-- The possible states of the `vault.json` file as `decryptVault`
distinguishes them (vault-manager.ts lines 298–336). -/
inductive VaultFile where
  /-- case where `fs.existsSync(VAULT_PATH)` is false -/
  | missing : VaultFile
  /-- file exists but is empty/whitespace -/
  | empty : VaultFile
  /-- case where `JSON.parse` throws -/
  | corruptJson : VaultFile
  /-- parsed, but `nonce`/`ciphertext` fields are missing or not strings -/
  | invalidFormat : VaultFile
  /-- a well-formed envelope -/
  | envelope (e : EncryptedEnvelope VaultDoc) : VaultFile
deriving DecidableEq, Repr

/-- The function `decryptVault()` (vault-manager.ts lines 298–336), translated branch by
branch.  A decryption failure (wrong key) is caught and reported with the
single opaque message of the source's `catch`. -/
def decryptVault (masterKey : Option MasterKey) (file : VaultFile) :
    Except String VaultDoc :=
  match masterKey with
  | none => .error "Vault locked"
  | some key =>
    match file with
    | .missing => .ok .emptyArr
    | .empty => .ok .emptyArr
    | .corruptJson => .error "Vault JSON corrupted"
    | .invalidFormat => .error "Master Password verification failed or vault corrupted."
    | .envelope e =>
      if e.encKey = key then .ok e.plaintext
      else .error "Master Password verification failed or vault corrupted."

/-- Association-list lookup mirroring `data.hosts?.[hostId] || null`. -/
def lookupHost (hosts : List (String × Credential)) (hostId : String) :
    Option Credential :=
  (hosts.find? (fun p => p.1 = hostId)).map Prod.snd

/-- The `vault:get-credential` handler (vault-manager.ts lines 164–177):
requires unlocked, loads and decrypts the vault, coerces a non-object
document to `{ hosts: {} }`, and answers `credential` (possibly `null`). -/
def getCredential (masterKey : Option MasterKey) (file : VaultFile)
    (hostId : String) : Except String (Option Credential) :=
  match masterKey with
  | none => .error "Vault locked"
  | some _ =>
    match decryptVault masterKey file with
    | .error e => .error e
    | .ok doc =>
      match doc with
      | .emptyArr => .ok (lookupHost [] hostId)
      | .objDoc hosts => .ok (lookupHost hosts hostId)

/-- The method `status()` (vault-manager.ts lines 19–21): `locked` iff no master key in
memory. -/
def vaultStatusLocked (masterKey : Option MasterKey) : Bool :=
  masterKey.isNone

/-! ## Unlock (`vault:init` handler, vault-manager.ts lines 179–209)

`getSalt` reads the salt out of `vault_meta.json` if present, otherwise
creates and persists a fresh one.  The fresh random draw is passed in. -/

/-- The function `getSalt` (vault-manager.ts lines 91–119): read-or-create.  Returns the
salt used and the metadata file contents afterwards. -/
def getSalt (meta : Option Salt) (freshDraw : Nat) : Salt × Option Salt :=
  match meta with
  | some s => (s, some s)
  | none => (⟨freshDraw⟩, some ⟨freshDraw⟩)

/-- Result of `vault:init`: the new in-memory master key (state), the new
metadata file, and the handler's reply. -/
structure InitResult where
  masterKey : Option MasterKey
  meta : Option Salt
  reply : Except String Unit
deriving Repr

/-- The `vault:init` handler: derive the key from the password and the
persisted (or fresh) salt, install it, then — if a vault file exists —
verify by decrypting; on verification failure reset the key to `null` and
report an authentication error. -/
def vaultInit (meta : Option Salt) (file : VaultFile) (password : String)
    (freshDraw : Nat) : InitResult :=
  let (salt, meta') := getSalt meta freshDraw
  let key := derive password salt
  if file = .missing then
    { masterKey := some key, meta := meta', reply := .ok () }
  else
    match decryptVault (some key) file with
    | .ok _ => { masterKey := some key, meta := meta', reply := .ok () }
    | .error _ =>
      { masterKey := none, meta := meta',
        reply := .error "Invalid Master Password (or corrupted vault)" }

/-! ## Password change (`vault:change-password` handler, vault-manager.ts
lines 211–258)

The handler performs, in source order:
1. decrypt the current vault with the in-memory key,
2. draw a new salt, 3. derive the new key, 4. seal the document under it,
5. `fs.writeFileSync(VAULT_PATH, …)` — the new envelope,
6. `fs.writeFileSync(METADATA_PATH, …)` — the new salt,
7. install the new key in memory.

The two plain `writeFileSync` calls are modelled as an explicit write trace
so that a failure between them is expressible. -/

inductive WriteOp where
  | writeVault (e : EncryptedEnvelope VaultDoc)
  | writeMeta (s : Salt)
deriving DecidableEq, Repr

/-- The persistent files the handler touches. -/
structure VaultDisk where
  vaultFile : VaultFile
  meta : Option Salt
deriving DecidableEq, Repr

/-- Apply a prefix of a write trace to the disk (a crash after `k` writes
leaves `applyWrites disk (ops.take k)`). -/
def applyWrites (disk : VaultDisk) : List WriteOp → VaultDisk
  | [] => disk
  | .writeVault e :: rest => applyWrites { disk with vaultFile := .envelope e } rest
  | .writeMeta s :: rest => applyWrites { disk with meta := some s } rest

/-- The handler `vault:change-password`: given the in-memory key, the disk, the new
password and the two fresh random draws (salt bytes and nonce), return the
write trace the handler issues together with the new in-memory key — or an
error, in which case no write is issued. -/
def changePassword (masterKey : Option MasterKey) (disk : VaultDisk)
    (newPassword : String) (saltDraw nonceDraw : Nat) :
    Except String (List WriteOp × MasterKey) :=
  match masterKey with
  | none => .error "Vault must be unlocked first"
  | some key =>
    match decryptVault (some key) disk.vaultFile with
    | .error _ => .error "Failed to decrypt current vault"
    | .ok doc =>
      let newSalt : Salt := ⟨saltDraw⟩
      let newKey := derive newPassword newSalt
      let newEnv : EncryptedEnvelope VaultDoc := ⟨nonceDraw, newKey, doc⟩
      .ok ([.writeVault newEnv, .writeMeta newSalt], newKey)

/-! ## Record store (db-manager.ts)

The sync engine only uses `exportData` / `importData`.  Rows carry the
columns of the schema; `tags` round-trips through JSON as a string list. -/

structure HostRow where
  name : String
  host : String
  port : Nat
  username : String
  folder : Option String
  tags : List String
  created_at : Option String
deriving DecidableEq, Repr

structure SnippetRow where
  name : String
  command : String
  tags : List String
  created_at : Option String
deriving DecidableEq, Repr

/-- The tables the sync payload carries (settings and remote connections are
modelled as opaque keyed values; their import is also insert-or-replace). -/
structure DbState where
  hosts : List (String × HostRow)
  snippets : List (String × SnippetRow)
deriving DecidableEq, Repr

/-- SQLite `INSERT OR REPLACE … (id, …)`: replace the row with primary key `id`
when present, insert otherwise. -/
def upsert (table : List (String × α)) (id : String) (row : α) :
    List (String × α) :=
  if table.any (fun p => p.1 = id) then
    table.map (fun p => if p.1 = id then (id, row) else p)
  else
    table ++ [(id, row)]

def lookupRow (table : List (String × α)) (id : String) : Option α :=
  (table.find? (fun p => p.1 = id)).map Prod.snd

/-- The payload side of `exportData` / `importData`: each entry carries the
primary key and the row written by the prepared statement. -/
structure DbPayload where
  hosts : List (String × HostRow)
  snippets : List (String × SnippetRow)
deriving DecidableEq, Repr

/-- Defaulting rule `created_at: host.created_at || new Date().toISOString()`. -/
def withCreatedAt (now : String) (c : Option String) : Option String :=
  match c with
  | some s => some s
  | none => some now

/-- The function `importData(data)` (db-manager.ts lines 107–174): one SQLite transaction
that upserts every host and snippet of the payload into the store.  Rows not
named by the payload are untouched. -/
def importData (db : DbState) (data : DbPayload) (now : String) : DbState :=
  let db₁ := { db with
    hosts := data.hosts.foldl
      (fun t (p : String × HostRow) =>
        upsert t p.1 { p.2 with created_at := withCreatedAt now p.2.created_at })
      db.hosts }
  { db₁ with
    snippets := data.snippets.foldl
      (fun t (p : String × SnippetRow) =>
        upsert t p.1 { p.2 with created_at := withCreatedAt now p.2.created_at })
      db₁.snippets }

/-- The function `exportData()` (db-manager.ts lines 91–105): a full dump of the
tables. -/
def exportData (db : DbState) : DbPayload :=
  ⟨db.hosts, db.snippets⟩

/-! ## Sync engine (git-manager.ts)

The working clone `SYNC_DIR` is a list of (file name, file content).  The
engine itself only ever writes two files there: the encrypted payload
`zenmius_db.enc` and (from the `git:clone` handler) the plaintext
credentials cache `.git-credentials-cache.json`. -/

/-- The combined payload of `git:sync` step 6: `{ db, vault }`. -/
structure SyncPayload where
  db : DbPayload
  vault : VaultDoc
deriving DecidableEq, Repr

inductive FileContent where
  /-- file `.git-credentials-cache.json`: `JSON.stringify({ url, token, username })` -/
  | plainCreds (url token username : String) : FileContent
  /-- an `EncryptedEnvelope` serialised as `{ nonce: hex, ciphertext: hex }` -/
  | encFile (e : EncryptedEnvelope SyncPayload) : FileContent
deriving DecidableEq, Repr

/-- Is this file content an encrypted envelope (as opposed to plaintext)? -/
def FileContent.isEncryptedPayload : FileContent → Bool
  | .encFile _ => true
  | .plainCreds _ _ _ => false

def encDbFileName : String := "zenmius_db.enc"

def credsCacheFileName : String := ".git-credentials-cache.json"

/-- The `git:clone` handler (git-manager.ts lines 49–60): wipe `SYNC_DIR`,
clone the remote tree into it, then write the credentials cache file in
plaintext inside the working tree. -/
def gitClone (remoteTree : List (String × FileContent))
    (url token username : String) : List (String × FileContent) :=
  upsert remoteTree credsCacheFileName (.plainCreds url token username)

inductive Mode where
  | push | pull | merge
deriving DecidableEq, Repr

structure SyncError where
  code : String
  msg : String
deriving DecidableEq, Repr

/-- Substring test `hay.includes(needle)` for a non-empty needle. -/
def containsSubstr (hay needle : String) : Bool :=
  (hay.splitOn needle).length > 1

/-- The corruption-signature test of the catch block (git-manager.ts line
237): `error.code === 'NotFoundError' || error.message.includes('HEAD') ||
error.message.includes('resolve')`. -/
def isCorruptionSignature (e : SyncError) : Bool :=
  e.code == "NotFoundError" || containsSubstr e.msg "HEAD" ||
    containsSubstr e.msg "resolve"

inductive CommitOutcome where
  | created (oid : String)
  | nothingToCommit
  | failed (e : SyncError)
deriving DecidableEq, Repr

/-- Outcomes of the external calls one `runSync` attempt makes, in program
order, plus the random nonce draws and the clock.  These are the attempt's
inputs from the outside world; everything else is computed. -/
structure AttemptEnv where
  /-- whether `fs.existsSync(SYNC_DIR/.git)` at step 1 -/
  dotGitExists : Bool
  /-- outcome of `git.listServerRefs` at step 3: number of refs, or a thrown error -/
  probe : Except String Nat
  /-- outcome of `git.pull` at step 4: the merged working tree on success -/
  pull : Except String (List (String × FileContent))
  /-- nonce drawn by `saveDirect` during import -/
  importNonce : Nat
  /-- the `importData` SQLite transaction commits (does not throw) -/
  dbImportOk : Bool
  /-- the `fs.writeFileSync(VAULT_PATH, …)` inside `saveDirect` succeeds -/
  vaultWriteOk : Bool
  /-- nonce drawn by `encryptData` during export -/
  exportNonce : Nat
  /-- outcome of `git.add({ filepath: "." })` -/
  add : Except SyncError Unit
  /-- result of `git.resolveRef HEAD` before the commit (empty string on error becomes `none`) -/
  headOid : Option String
  /-- outcome of `git.commit` -/
  commit : CommitOutcome
  /-- the forced `Initialize Sync Branch` commit on an empty repository -/
  initCommit : Except SyncError Unit
  /-- outcome of `git.push` -/
  push : Except SyncError Unit
  /-- clock value `new Date().toISOString()` -/
  now : String
deriving Repr

/-- The mutable state one attempt reads and writes: the record store, the
vault file, and the sync working tree. -/
structure SyncState where
  db : DbState
  vaultFile : VaultFile
  tree : List (String × FileContent)
deriving DecidableEq, Repr

structure AttemptResult where
  result : Except SyncError Unit
  remoteHasData : Bool
  state : SyncState
  /-- the file set staged by `git.add({ filepath: '.' })`, when it ran -/
  staged : Option (List (String × FileContent))
  /-- the `force` flag of the `git.push` call, when it ran -/
  pushForce : Option Bool
  /-- the tree published to the remote, when the push succeeded -/
  pushedTree : Option (List (String × FileContent))
deriving Repr

/-- Step 5 of `runSync` (git-manager.ts lines 134–160): if the encrypted
payload file exists, decrypt it; on success run `dbManager.importData` (one
SQLite transaction) and then `vaultManager.saveDirect`.  A decryption
failure skips the import; an exception from `importData` is caught at line
157 (the transaction rolls back and `saveDirect` never runs); a `saveDirect`
failure is only logged, after the record-store import already committed. -/
def importStep (key : MasterKey) (st : SyncState) (importNonce : Nat)
    (dbImportOk vaultWriteOk : Bool) (now : String) : SyncState :=
  match lookupRow st.tree encDbFileName with
  | some (.encFile env) =>
    match decryptData (some key) env with
    | .ok payload =>
      if dbImportOk then
        let db' := importData st.db payload.db now
        if vaultWriteOk then
          { st with db := db',
                    vaultFile := .envelope ⟨importNonce, key, payload.vault⟩ }
        else
          { st with db := db' }
      else st
    | .error _ => st
  | _ => st

/-- One attempt of `runSync` (git-manager.ts lines 78–234), translated step
by step.  The vault was checked unlocked by the handler before `runSync`
(line 76), so the master key is a plain value here. -/
def runAttempt (mode : Mode) (key : MasterKey) (st₀ : SyncState)
    (env : AttemptEnv) : AttemptResult :=
  -- 1. REPO INIT: a missing .git wipes SYNC_DIR and re-initialises it empty
  let st₁ := if env.dotGitExists then st₀ else { st₀ with tree := [] }
  -- 3. REMOTE CHECK: probe failure is logged and swallowed (remoteHasData stays false)
  let remoteHasData : Bool :=
    match env.probe with | .ok n => decide (n > 0) | .error _ => false
  -- 4. PULL (merge/pull modes, remote non-empty): errors logged and swallowed
  let st₂ :=
    if remoteHasData && !(mode == Mode.push) then
      match env.pull with
      | .ok mergedTree => { st₁ with tree := mergedTree }
      | .error _ => st₁
    else st₁
  -- 5. DATA IMPORT (skipped in push mode)
  let st₃ :=
    if mode = Mode.push then st₂
    else importStep key st₂ env.importNonce env.dbImportOk env.vaultWriteOk env.now
  -- 6. COMMIT & PUSH (push/merge modes)
  if mode = Mode.push ∨ mode = Mode.merge then
    let vaultData : VaultDoc :=
      match decryptVault (some key) st₃.vaultFile with
      | .ok d => d
      | .error _ => .objDoc []   -- `vaultRes.success ? vaultRes.data : {}`
    let payload : SyncPayload := { db := exportData st₃.db, vault := vaultData }
    let envl : EncryptedEnvelope SyncPayload := ⟨env.exportNonce, key, payload⟩
    let tree' := upsert st₃.tree encDbFileName (.encFile envl)
    let st₄ := { st₃ with tree := tree' }
    match env.add with
    | .error e =>
      { result := .error e, remoteHasData := remoteHasData, state := st₄,
        staged := none, pushForce := none, pushedTree := none }
    | .ok _ =>
      let commitRes : Except SyncError Unit :=
        match env.commit with
        | .created _ => .ok ()
        | .failed e => .error e
        | .nothingToCommit =>
          match env.headOid with
          | some _ => .ok ()
          | none => env.initCommit
      match commitRes with
      | .error e =>
        { result := .error e, remoteHasData := remoteHasData, state := st₄,
          staged := some tree', pushForce := none, pushedTree := none }
      | .ok _ =>
        let force := mode == Mode.push || !remoteHasData
        match env.push with
        | .error e =>
          { result := .error e, remoteHasData := remoteHasData, state := st₄,
            staged := some tree', pushForce := some force, pushedTree := none }
        | .ok _ =>
          { result := .ok (), remoteHasData := remoteHasData, state := st₄,
            staged := some tree', pushForce := some force,
            pushedTree := some tree' }
  else
    { result := .ok (), remoteHasData := remoteHasData, state := st₃,
      staged := none, pushForce := none, pushedTree := none }

structure SyncRunResult where
  result : Except SyncError Unit
  attemptsUsed : Nat
deriving Repr

/-- The second, `retry = false`, invocation of `runSync`: one attempt whose
failure is returned to the caller unchanged (git-manager.ts line 242). -/
def runSyncNoRetry (mode : Mode) (key : MasterKey) (st : SyncState)
    (env : AttemptEnv) : SyncRunResult :=
  { result := (runAttempt mode key st env).result, attemptsUsed := 2 }

/-- The function `runSync()` as called at git-manager.ts line 246 (`retry = true`): run
one attempt; on a failure matching the corruption signature, wipe `SYNC_DIR`
(so the retry starts with an empty tree and no `.git`) and run exactly one
more attempt with `retry = false`; any other failure, or a failure of the
retry itself, is returned to the caller. -/
def runSync (mode : Mode) (key : MasterKey) (st₀ : SyncState)
    (envs : Nat → AttemptEnv) : SyncRunResult :=
  let a := runAttempt mode key st₀ (envs 0)
  match a.result with
  | .ok _ => { result := .ok (), attemptsUsed := 1 }
  | .error e =>
    if isCorruptionSignature e then
      runSyncNoRetry mode key { a.state with tree := [] }
        { envs 1 with dotGitExists := false }
    else
      { result := .error e, attemptsUsed := 1 }

/-! ## Concrete instances used to evaluate the definitions -/

/-- A small vault document: one host credential. -/
def docCex : VaultDoc :=
  .objDoc [("hostA", ⟨"root", "x", "2024-01-01T00:00:00Z"⟩)]

/-- A host row as carried by a sync payload (no `created_at` yet). -/
def hostRowCex : HostRow :=
  { name := "web-1", host := "10.0.0.1", port := 22, username := "root",
    folder := none, tags := ["prod"], created_at := none }

/-- A sync payload carrying one remote host and an empty vault object. -/
def payloadCex : SyncPayload :=
  { db := { hosts := [("h1", hostRowCex)], snippets := [] },
    vault := .objDoc [] }

def keyCex : MasterKey := derive "pw" ⟨0⟩

/-- The encrypted payload file contents sealed under `keyCex`. -/
def envCex : EncryptedEnvelope SyncPayload := ⟨3, keyCex, payloadCex⟩

/-- Local state for the import step: empty record store, no vault file, the
encrypted payload file present in the working tree. -/
def stCex : SyncState :=
  { db := { hosts := [], snippets := [] }, vaultFile := .missing,
    tree := [(encDbFileName, .encFile envCex)] }

/-- An attempt environment in which every external git call fails with the
repository-corruption signature at the `git.add` step. -/
def envCorruptCex : AttemptEnv :=
  { dotGitExists := true, probe := .error "network down",
    pull := .error "offline", importNonce := 0, dbImportOk := true,
    vaultWriteOk := true, exportNonce := 0,
    add := .error ⟨"NotFoundError", "Could not resolve HEAD"⟩,
    headOid := none, commit := .nothingToCommit, initCommit := .ok (),
    push := .ok (), now := "2024-01-01T00:00:00Z" }

/-- An attempt environment in which every external git call succeeds and the
remote is empty. -/
def envOkCex : AttemptEnv :=
  { dotGitExists := true, probe := .ok 0, pull := .ok [], importNonce := 4,
    dbImportOk := true, vaultWriteOk := true, exportNonce := 5,
    add := .ok (), headOid := none, commit := .created "abc123",
    initCommit := .ok (), push := .ok (), now := "2024-01-01T00:00:00Z" }

/-- Like `envOkCex`, but the remote-refs probe throws (network/auth error
during `git.listServerRefs`). -/
def envProbeFailCex : AttemptEnv :=
  { envOkCex with probe := .error "HTTP Error: 401 Unauthorized" }

def localHostRowCex : HostRow :=
  { name := "db-1", host := "10.0.0.2", port := 22, username := "admin",
    folder := none, tags := [], created_at := some "2023-01-01" }

def localSnipRowCex : SnippetRow :=
  { name := "Disk Usage", command := "du -sh *", tags := ["sys"],
    created_at := some "2023-01-01" }

/-- A local record store holding one host and one snippet that the remote
payload does not mention. -/
def dbLocalCex : DbState :=
  { hosts := [("local-host", localHostRowCex)],
    snippets := [("local-snip", localSnipRowCex)] }

/-- A remote payload naming different records than `dbLocalCex`. -/
def dbRemoteCex : DbPayload :=
  { hosts := [("h1", hostRowCex)],
    snippets := [("remote-snip",
      { name := "Docker Cleanup", command := "docker system prune -f",
        tags := ["docker"], created_at := none })] }

end Zenmius

namespace Zenmius

/-! ## Theorems -/

/-- C7: For every plaintext document `D`, password `P` and salt,
decrypting the envelope produced by `encryptData` under the key
`derive P salt`, using that same key, succeeds and yields exactly `D`:
the encrypt-then-decrypt round trip is the identity. -/
theorem encrypt_then_decrypt_id {α : Type} (P : String) (salt : Salt)
    (nonce : Nat) (D : α) :
    (encryptData (some (derive P salt)) nonce D).bind
        (decryptData (some (derive P salt))) = .ok D := by
  simp [encryptData, decryptData, Except.bind]

/-- C5: For all passwords `P₁ ≠ P₂` and any envelope sealed under
`derive P₁ salt`, `decryptData` under `derive P₂ salt` fails with an error
and never returns plaintext: wrong-password decryption never silently
succeeds. -/
theorem wrong_password_decrypt_fails {α : Type} (P₁ P₂ : String)
    (salt : Salt) (nonce : Nat) (D : α) (hne : P₁ ≠ P₂) :
    decryptData (some (derive P₂ salt))
        ⟨nonce, derive P₁ salt, D⟩ = .error "Decryption Failed" := by
  have hk : derive P₁ salt ≠ derive P₂ salt := by
    intro h
    exact hne (congrArg MasterKey.password h)
  simp [decryptData, hk]

/-- Witness for `wrong_password_decrypt_fails` at `P₁ = "old"`,
`P₂ = "new"`. -/
theorem wrong_password_decrypt_fails_witness :
    ("old" : String) ≠ "new" ∧
      decryptData (some (derive "new" ⟨0⟩))
        (⟨7, derive "old" ⟨0⟩, VaultDoc.emptyArr⟩ :
          EncryptedEnvelope VaultDoc) = .error "Decryption Failed" :=
  ⟨by decide, wrong_password_decrypt_fails "old" "new" ⟨0⟩ 7 VaultDoc.emptyArr
    (by decide)⟩

/-- C10: When the vault is unlocked and `vault.json` is missing or
empty, `decryptVault` reports success with the empty array `[]` as the
document (not an empty host map), and `vault:get-credential` then succeeds
for every `hostId` with `credential = null` instead of an error. -/
theorem empty_vault_loads_empty_array (k : MasterKey) (hostId : String) :
    decryptVault (some k) .missing = .ok .emptyArr ∧
      decryptVault (some k) .empty = .ok .emptyArr ∧
      VaultDoc.emptyArr ≠ .objDoc [] ∧
      getCredential (some k) .missing hostId = .ok none ∧
      getCredential (some k) .empty hostId = .ok none := by
  refine ⟨rfl, rfl, by decide, ?_, ?_⟩ <;>
    simp [getCredential, decryptVault, lookupHost]

/-- C6: `vault:init` with a password whose derived key does not open
the on-disk envelope discards the derived key: the reply is the
authentication error, the in-memory key is `null`, `status()` reports
locked, and every subsequent `vault:get-credential` fails as locked. -/
theorem failed_unlock_stays_locked (meta : Option Salt)
    (e : EncryptedEnvelope VaultDoc) (password : String) (freshDraw : Nat)
    (hfail : e.encKey ≠ derive password (getSalt meta freshDraw).1) :
    (vaultInit meta (.envelope e) password freshDraw).masterKey = none ∧
      (vaultInit meta (.envelope e) password freshDraw).reply =
        .error "Invalid Master Password (or corrupted vault)" ∧
      vaultStatusLocked
        (vaultInit meta (.envelope e) password freshDraw).masterKey = true ∧
      ∀ file hostId,
        getCredential (vaultInit meta (.envelope e) password freshDraw).masterKey
          file hostId = .error "Vault locked" := by
  have h : vaultInit meta (.envelope e) password freshDraw =
      { masterKey := none, meta := (getSalt meta freshDraw).2,
        reply := .error "Invalid Master Password (or corrupted vault)" } := by
    simp [vaultInit, decryptVault, hfail]
  refine ⟨by rw [h], by rw [h], by rw [h]; rfl, ?_⟩
  intro file hostId
  rw [h]
  rfl

/-- Witness for `failed_unlock_stays_locked`: the stored envelope is sealed
under the key for password `"right"`; unlocking with `"wrong"` fails and
leaves the vault locked. -/
theorem failed_unlock_stays_locked_witness :
    (⟨7, derive "right" ⟨0⟩, docCex⟩ :
        EncryptedEnvelope VaultDoc).encKey ≠
      derive "wrong" (getSalt (some ⟨0⟩) 5).1 ∧
      ((vaultInit (some ⟨0⟩)
          (.envelope ⟨7, derive "right" ⟨0⟩, docCex⟩) "wrong" 5).masterKey =
        none ∧
      (vaultInit (some ⟨0⟩)
          (.envelope ⟨7, derive "right" ⟨0⟩, docCex⟩) "wrong" 5).reply =
        .error "Invalid Master Password (or corrupted vault)" ∧
      vaultStatusLocked
        (vaultInit (some ⟨0⟩)
          (.envelope ⟨7, derive "right" ⟨0⟩, docCex⟩) "wrong" 5).masterKey =
        true ∧
      ∀ file hostId,
        getCredential
          (vaultInit (some ⟨0⟩)
            (.envelope ⟨7, derive "right" ⟨0⟩, docCex⟩) "wrong" 5).masterKey
          file hostId = .error "Vault locked") :=
  ⟨by decide, failed_unlock_stays_locked (some ⟨0⟩)
    ⟨7, derive "right" ⟨0⟩, docCex⟩ "wrong" 5 (by decide)⟩

/-- C2 counterexample: The claim "changePassword persists the new
salt first, then the new envelope, and a failure partway never leaves the
old salt paired with the new envelope" is false at a concrete input: with
the vault unlocked under `derive "old" ⟨0⟩`, the handler's first write is
`writeVault` (the new envelope), not `writeMeta`; and applying only that
first write (a crash before the second `writeFileSync`) leaves the old salt
`⟨0⟩` on disk paired with the envelope sealed under the new key. -/
theorem changePassword_salt_first_cex :
    changePassword (some (derive "old" ⟨0⟩))
        ⟨.envelope ⟨0, derive "old" ⟨0⟩, docCex⟩, some ⟨0⟩⟩ "new" 1 7 =
      .ok ([.writeVault ⟨7, derive "new" ⟨1⟩, docCex⟩, .writeMeta ⟨1⟩],
           derive "new" ⟨1⟩) ∧
      applyWrites ⟨.envelope ⟨0, derive "old" ⟨0⟩, docCex⟩, some ⟨0⟩⟩
          (List.take 1
            [.writeVault ⟨7, derive "new" ⟨1⟩, docCex⟩, .writeMeta ⟨1⟩]) =
        ⟨.envelope ⟨7, derive "new" ⟨1⟩, docCex⟩, some ⟨0⟩⟩ ∧
      (⟨0⟩ : Salt) ≠ ⟨1⟩ ∧ derive "new" ⟨1⟩ ≠ derive "old" ⟨0⟩ := by
  refine ⟨?_, rfl, by decide, by decide⟩
  simp [changePassword, decryptVault, derive]

/-- C2 amended: `changePassword`, when the vault is unlocked and the
current vault decrypts, issues exactly two writes in the order new envelope
first, then new salt; a failure after the first write leaves the old salt
paired with the new envelope on disk (the two `writeFileSync` calls are not
atomic); if decrypting the current vault fails, no write is issued. -/
theorem changePassword_write_order (key : MasterKey) (disk : VaultDisk)
    (newPassword : String) (saltDraw nonceDraw : Nat) (doc : VaultDoc)
    (hdec : decryptVault (some key) disk.vaultFile = .ok doc) :
    changePassword (some key) disk newPassword saltDraw nonceDraw =
      .ok ([.writeVault ⟨nonceDraw, derive newPassword ⟨saltDraw⟩, doc⟩,
            .writeMeta ⟨saltDraw⟩],
           derive newPassword ⟨saltDraw⟩) ∧
      applyWrites disk
          (List.take 1
            [.writeVault ⟨nonceDraw, derive newPassword ⟨saltDraw⟩, doc⟩,
             .writeMeta ⟨saltDraw⟩]) =
        { disk with vaultFile :=
            .envelope ⟨nonceDraw, derive newPassword ⟨saltDraw⟩, doc⟩ } := by
  constructor
  · simp [changePassword, hdec]
  · rfl

/-- Witness for `changePassword_write_order` on a concrete unlocked vault. -/
theorem changePassword_write_order_witness :
    decryptVault (some (derive "old" ⟨0⟩))
        (VaultDisk.mk (.envelope ⟨0, derive "old" ⟨0⟩, docCex⟩) (some ⟨0⟩)).vaultFile =
      .ok docCex ∧
      (changePassword (some (derive "old" ⟨0⟩))
          ⟨.envelope ⟨0, derive "old" ⟨0⟩, docCex⟩, some ⟨0⟩⟩ "new" 1 7 =
        .ok ([.writeVault ⟨7, derive "new" ⟨1⟩, docCex⟩, .writeMeta ⟨1⟩],
             derive "new" ⟨1⟩) ∧
      applyWrites ⟨.envelope ⟨0, derive "old" ⟨0⟩, docCex⟩, some ⟨0⟩⟩
          (List.take 1
            [.writeVault ⟨7, derive "new" ⟨1⟩, docCex⟩, .writeMeta ⟨1⟩]) =
        { (⟨.envelope ⟨0, derive "old" ⟨0⟩, docCex⟩, some ⟨0⟩⟩ : VaultDisk) with
            vaultFile := .envelope ⟨7, derive "new" ⟨1⟩, docCex⟩ }) :=
  ⟨by simp [decryptVault],
   changePassword_write_order (derive "old" ⟨0⟩)
     ⟨.envelope ⟨0, derive "old" ⟨0⟩, docCex⟩, some ⟨0⟩⟩ "new" 1 7 docCex
     (by simp [decryptVault])⟩

/-- C3 counterexample: The claim "record-store import and vault import
are applied transactionally (both-or-neither)" is false at a
concrete input: the local payload file decrypts successfully, the SQLite
transaction of `importData` commits, and then `saveDirect` fails (its
`writeFileSync` throws and is only logged) — the record store has received
`payload.db` while the vault file is unchanged: exactly one of the two
states was modified. -/
theorem import_step_transactional_cex :
    decryptData (some keyCex) envCex = .ok payloadCex ∧
      (importStep keyCex stCex 9 true false "now").db ≠ stCex.db ∧
      (importStep keyCex stCex 9 true false "now").vaultFile =
        stCex.vaultFile := by
  refine ⟨rfl, ?_, rfl⟩
  decide

/-- C3 amended: During a non-push sync, when the local payload
decrypts successfully, the record-store import runs first as a single
transaction and the vault import second: the outcome is either both applied
(vault write succeeds), or the record store alone modified (vault write
fails, logged as a warning), or nothing modified (the `importData`
transaction throws and rolls back, skipping `saveDirect`); the vault file
is never updated unless the record-store import committed. -/
theorem import_step_outcomes (key : MasterKey) (st : SyncState)
    (nonce : Nat) (dbOk vOk : Bool) (now : String)
    (env : EncryptedEnvelope SyncPayload) (payload : SyncPayload)
    (hfile : lookupRow st.tree encDbFileName = some (.encFile env))
    (hdec : decryptData (some key) env = .ok payload) :
    (dbOk = true ∧ vOk = true ∧
      importStep key st nonce dbOk vOk now =
        { st with db := importData st.db payload.db now,
                  vaultFile := .envelope ⟨nonce, key, payload.vault⟩ }) ∨
    (dbOk = true ∧ vOk = false ∧
      importStep key st nonce dbOk vOk now =
        { st with db := importData st.db payload.db now }) ∨
    (dbOk = false ∧ importStep key st nonce dbOk vOk now = st) := by
  match hd : dbOk, hv : vOk with
  | true, true =>
    refine Or.inl ⟨rfl, rfl, ?_⟩
    simp [importStep, hfile, hdec]
  | true, false =>
    refine Or.inr (Or.inl ⟨rfl, rfl, ?_⟩)
    simp [importStep, hfile, hdec]
  | false, _ =>
    refine Or.inr (Or.inr ⟨rfl, ?_⟩)
    simp [importStep, hfile, hdec]

/-- Witness for `import_step_outcomes` on the concrete import state, in the
both-applied configuration. -/
theorem import_step_outcomes_witness :
    lookupRow stCex.tree encDbFileName = some (.encFile envCex) ∧
      decryptData (some keyCex) envCex = .ok payloadCex ∧
      ((true = true ∧ true = true ∧
        importStep keyCex stCex 9 true true "now" =
          { stCex with db := importData stCex.db payloadCex.db "now",
                       vaultFile := .envelope ⟨9, keyCex, payloadCex.vault⟩ }) ∨
      (true = true ∧ true = false ∧
        importStep keyCex stCex 9 true true "now" =
          { stCex with db := importData stCex.db payloadCex.db "now" }) ∨
      (true = false ∧ importStep keyCex stCex 9 true true "now" = stCex)) :=
  ⟨rfl, rfl,
   import_step_outcomes keyCex stCex 9 true true "now" envCex payloadCex rfl rfl⟩

/-- C4: The self-heal cycle runs at most once per `sync()` call: for
every environment, `runSync` makes at most two attempts; and when the first
attempt fails with the repository-corruption signature and the single
wipe-and-retry attempt fails again (with any error), that second error is
returned to the caller as terminal — it is not retried. -/
theorem self_heal_at_most_once (mode : Mode) (key : MasterKey)
    (st₀ : SyncState) (envs : Nat → AttemptEnv) (e₁ e₂ : SyncError)
    (h1 : (runAttempt mode key st₀ (envs 0)).result = .error e₁)
    (hsig : isCorruptionSignature e₁ = true)
    (h2 : (runAttempt mode key
            { (runAttempt mode key st₀ (envs 0)).state with tree := [] }
            { envs 1 with dotGitExists := false }).result = .error e₂) :
    runSync mode key st₀ envs = { result := .error e₂, attemptsUsed := 2 } ∧
      ∀ (envs' : Nat → AttemptEnv),
        (runSync mode key st₀ envs').attemptsUsed ≤ 2 := by
  constructor
  · simp only [runSync, runSyncNoRetry, h1, hsig, if_true, h2]
  · intro envs'
    simp only [runSync, runSyncNoRetry]
    cases (runAttempt mode key st₀ (envs' 0)).result with
    | ok _ => simp
    | error e =>
      split
      · simp
      · split <;> simp

/-- Witness for `self_heal_at_most_once`: both attempts fail at `git.add`
with a `NotFoundError` about an unresolvable HEAD. -/
theorem self_heal_at_most_once_witness :
    (runAttempt Mode.merge keyCex stCex ((fun _ => envCorruptCex) 0)).result =
        .error ⟨"NotFoundError", "Could not resolve HEAD"⟩ ∧
      isCorruptionSignature ⟨"NotFoundError", "Could not resolve HEAD"⟩ = true ∧
      (runAttempt Mode.merge keyCex
          { (runAttempt Mode.merge keyCex stCex ((fun _ => envCorruptCex) 0)).state
              with tree := [] }
          { (fun (_ : Nat) => envCorruptCex) 1 with dotGitExists := false }).result =
        .error ⟨"NotFoundError", "Could not resolve HEAD"⟩ ∧
      (runSync Mode.merge keyCex stCex (fun _ => envCorruptCex) =
        { result := .error ⟨"NotFoundError", "Could not resolve HEAD"⟩,
          attemptsUsed := 2 } ∧
      ∀ (envs' : Nat → AttemptEnv),
        (runSync Mode.merge keyCex stCex envs').attemptsUsed ≤ 2) :=
  ⟨rfl, by decide, rfl,
   self_heal_at_most_once Mode.merge keyCex stCex (fun _ => envCorruptCex)
     ⟨"NotFoundError", "Could not resolve HEAD"⟩
     ⟨"NotFoundError", "Could not resolve HEAD"⟩ rfl (by decide) rfl⟩

/-- C9: When listing the remote's refs throws, the attempt swallows the
error and proceeds with `remoteHasData = false`; consequently in merge mode
the push (when reached) is performed with `force = true`, and if the push
itself succeeds the sync reports success — overwriting whatever the remote
actually holds. -/
theorem probe_failure_forces_push (key : MasterKey) (st₀ : SyncState)
    (env : AttemptEnv) (errMsg oid : String)
    (hprobe : env.probe = .error errMsg)
    (hadd : env.add = .ok ())
    (hcommit : env.commit = .created oid) :
    (runAttempt Mode.merge key st₀ env).remoteHasData = false ∧
      (runAttempt Mode.merge key st₀ env).pushForce = some true ∧
      (env.push = .ok () →
        (runAttempt Mode.merge key st₀ env).result = .ok ()) := by
  rcases hp : env.push with e | u <;>
    simp [runAttempt, hprobe, hadd, hcommit, hp]

/-- Witness for `probe_failure_forces_push`: a merge sync whose remote
probe fails with an HTTP 401 still force-pushes. -/
theorem probe_failure_forces_push_witness :
    envProbeFailCex.probe = .error "HTTP Error: 401 Unauthorized" ∧
      envProbeFailCex.add = .ok () ∧
      envProbeFailCex.commit = .created "abc123" ∧
      ((runAttempt Mode.merge keyCex stCex envProbeFailCex).remoteHasData =
          false ∧
        (runAttempt Mode.merge keyCex stCex envProbeFailCex).pushForce =
          some true ∧
        (envProbeFailCex.push = .ok () →
          (runAttempt Mode.merge keyCex stCex envProbeFailCex).result =
            .ok ())) :=
  ⟨rfl, rfl, rfl,
   probe_failure_forces_push keyCex stCex envProbeFailCex
     "HTTP Error: 401 Unauthorized" "abc123" rfl rfl rfl⟩

/-- Replacing the row under key `id'` leaves `find?` for a different key
`id` unchanged. -/
theorem find_map_replace {α : Type} (t : List (String × α)) (id id' : String)
    (r : α) (h : id ≠ id') :
    (t.map (fun p => if p.1 = id' then (id', r) else p)).find?
        (fun p => p.1 = id) =
      t.find? (fun p => p.1 = id) := by
  induction t with
  | nil => rfl
  | cons a t ih =>
    by_cases ha : a.1 = id'
    · have h1 : ¬(id' = id) := fun he => h he.symm
      have h2 : ¬(a.1 = id) := ha ▸ h1
      simp [List.find?_cons, ha, h1, h2, ih]
    · simp only [List.map_cons, if_neg ha, List.find?_cons]
      by_cases hb : a.1 = id <;> simp [hb, ih]

/-- Appending a row under key `id'` leaves `find?` for a different key `id`
unchanged. -/
theorem find_append_miss {α : Type} (t : List (String × α)) (id id' : String)
    (r : α) (h : id ≠ id') :
    (t ++ [(id', r)]).find? (fun p => p.1 = id) =
      t.find? (fun p => p.1 = id) := by
  induction t with
  | nil =>
    have h' : ¬(id' = id) := fun he => h he.symm
    simp [List.find?, h']
  | cons a t ih =>
    by_cases hb : a.1 = id <;> simp [List.find?_cons, hb, ih]

/-- An `upsert` at key `id'` does not disturb the lookup of a different key. -/
theorem lookupRow_upsert_ne {α : Type} (t : List (String × α))
    (id id' : String) (r : α) (h : id ≠ id') :
    lookupRow (upsert t id' r) id = lookupRow t id := by
  unfold upsert lookupRow
  split
  · rw [find_map_replace t id id' r h]
  · rw [find_append_miss t id id' r h]

/-- Folding `upsert` over a payload that never mentions key `id` leaves the
lookup of `id` unchanged. -/
theorem lookupRow_foldl_upsert_ne {α : Type} (l : List (String × α))
    (g : String → α → α) (t : List (String × α)) (id : String)
    (h : ∀ p ∈ l, p.1 ≠ id) :
    lookupRow (l.foldl (fun acc p => upsert acc p.1 (g p.1 p.2)) t) id =
      lookupRow t id := by
  induction l generalizing t with
  | nil => rfl
  | cons a l ih =>
    rw [List.foldl_cons,
        ih _ (fun p hp => h p (List.mem_cons_of_mem a hp)),
        lookupRow_upsert_ne t id a.1 (g a.1 a.2)
          (fun he => h a (List.mem_cons_self a l) he.symm)]

/-- When the table already holds key `id`, the replacement row is found. -/
theorem find_map_replace_self {α : Type} (t : List (String × α))
    (id : String) (r : α)
    (hmem : t.any (fun p => p.1 = id) = true) :
    (t.map (fun p => if p.1 = id then (id, r) else p)).find?
        (fun p => p.1 = id) = some (id, r) := by
  induction t with
  | nil => simp at hmem
  | cons a t ih =>
    by_cases ha : a.1 = id
    · simp [List.find?_cons, ha]
    · simp only [List.any_cons, Bool.or_eq_true, decide_eq_true_eq] at hmem
      rcases hmem with hmem | hmem
      · exact absurd hmem ha
      · simp only [List.map_cons, if_neg ha, List.find?_cons]
        simp [ha, ih (by simpa using hmem)]

/-- When the table does not hold key `id`, the appended row is found. -/
theorem find_append_self {α : Type} (t : List (String × α)) (id : String)
    (r : α) (hmem : t.any (fun p => p.1 = id) = false) :
    (t ++ [(id, r)]).find? (fun p => p.1 = id) = some (id, r) := by
  induction t with
  | nil => simp [List.find?]
  | cons a t ih =>
    simp only [List.any_cons, Bool.or_eq_false_iff, decide_eq_false_iff_not]
      at hmem
    simp [List.find?_cons, hmem.1, ih (by simpa using hmem.2)]

/-- After `upsert t id r` the key `id` maps to `r`. -/
theorem lookupRow_upsert_self {α : Type} (t : List (String × α))
    (id : String) (r : α) :
    lookupRow (upsert t id r) id = some r := by
  unfold upsert lookupRow
  rcases hany : t.any (fun p => p.1 = id) with _ | _
  · rw [if_neg (by simp [hany]), find_append_self t id r hany]
    rfl
  · rw [if_pos (by simp [hany]), find_map_replace_self t id r hany]
    rfl

/-- Every key the payload mentions is present after folding `upsert`. -/
theorem lookupRow_foldl_upsert_present {α : Type} (l : List (String × α))
    (g : String → α → α) (t : List (String × α)) (id : String)
    (hmem : id ∈ l.map Prod.fst) :
    (lookupRow (l.foldl (fun acc p => upsert acc p.1 (g p.1 p.2)) t)
        id).isSome = true := by
  induction l generalizing t with
  | nil => simp at hmem
  | cons a l ih =>
    rw [List.foldl_cons]
    by_cases h : id ∈ l.map Prod.fst
    · exact ih _ h
    · have ha : a.1 = id := by
        simp only [List.map_cons, List.mem_cons] at hmem
        rcases hmem with h' | h'
        · exact h'.symm
        · exact absurd h' h
      have hnot : ∀ p ∈ l, p.1 ≠ id := by
        intro p hp he
        exact h (he ▸ List.mem_map_of_mem Prod.fst hp)
      rw [lookupRow_foldl_upsert_ne l g _ id hnot, ← ha,
          lookupRow_upsert_self t a.1 (g a.1 a.2)]
      rfl

/-- C8: A merge-mode import never discards local-only records: every
host and snippet present in the local store whose id is absent from
the imported remote payload is still present, with the same row, after
`importData`; and every record the remote payload names is present as well,
so the post-merge store contains the union of local-only and remote-only
records. -/
theorem merge_preserves_local_only (db : DbState) (data : DbPayload)
    (now : String) (hid sid : String) (hr : HostRow) (sr : SnippetRow)
    (hloc : lookupRow db.hosts hid = some hr)
    (habs : ∀ p ∈ data.hosts, p.1 ≠ hid)
    (hsloc : lookupRow db.snippets sid = some sr)
    (hsabs : ∀ p ∈ data.snippets, p.1 ≠ sid) :
    lookupRow (importData db data now).hosts hid = some hr ∧
      lookupRow (importData db data now).snippets sid = some sr ∧
      (∀ rid ∈ data.hosts.map Prod.fst,
        (lookupRow (importData db data now).hosts rid).isSome = true) ∧
      (∀ rid ∈ data.snippets.map Prod.fst,
        (lookupRow (importData db data now).snippets rid).isSome = true) := by
  refine ⟨?_, ?_, ?_, ?_⟩
  · exact (lookupRow_foldl_upsert_ne data.hosts
      (fun _ row => { row with created_at := withCreatedAt now row.created_at })
      db.hosts hid habs).trans hloc
  · exact (lookupRow_foldl_upsert_ne data.snippets
      (fun _ row => { row with created_at := withCreatedAt now row.created_at })
      db.snippets sid hsabs).trans hsloc
  · intro rid hmem
    exact lookupRow_foldl_upsert_present data.hosts
      (fun _ row => { row with created_at := withCreatedAt now row.created_at })
      db.hosts rid hmem
  · intro rid hmem
    exact lookupRow_foldl_upsert_present data.snippets
      (fun _ row => { row with created_at := withCreatedAt now row.created_at })
      db.snippets rid hmem

/-- Witness for `merge_preserves_local_only`: a local host and snippet the
remote payload does not mention survive the merge import unchanged. -/
theorem merge_preserves_local_only_witness :
    lookupRow dbLocalCex.hosts "local-host" = some localHostRowCex ∧
      (∀ p ∈ dbRemoteCex.hosts, p.1 ≠ "local-host") ∧
      lookupRow dbLocalCex.snippets "local-snip" = some localSnipRowCex ∧
      (∀ p ∈ dbRemoteCex.snippets, p.1 ≠ "local-snip") ∧
      (lookupRow (importData dbLocalCex dbRemoteCex "now").hosts
          "local-host" = some localHostRowCex ∧
        lookupRow (importData dbLocalCex dbRemoteCex "now").snippets
          "local-snip" = some localSnipRowCex ∧
        (∀ rid ∈ dbRemoteCex.hosts.map Prod.fst,
          (lookupRow (importData dbLocalCex dbRemoteCex "now").hosts
              rid).isSome = true) ∧
        (∀ rid ∈ dbRemoteCex.snippets.map Prod.fst,
          (lookupRow (importData dbLocalCex dbRemoteCex "now").snippets
              rid).isSome = true)) :=
  ⟨rfl, by decide, rfl, by decide,
   merge_preserves_local_only dbLocalCex dbRemoteCex "now" "local-host"
     "local-snip" localHostRowCex localSnipRowCex rfl (by decide) rfl
     (by decide)⟩

/-- C1: Evaluating the sync pipeline at the state produced by
`git:clone`: the working tree holds the plaintext credentials cache
`.git-credentials-cache.json`; `git.add({ filepath: '.' })` stages the whole
tree, and the successful push publishes it — so a pushed file is the
plaintext `{ url, token, username }` cache, not an `EncryptedEnvelope`,
contradicting "every pushed file is encrypted and the cached-credentials
file is never pushed". -/
theorem plaintext_creds_pushed :
    ∃ t, (runAttempt Mode.merge keyCex
        ⟨⟨[], []⟩, .missing,
          gitClone [] "https://example.com/repo.git" "tok123" "alice"⟩
        envOkCex).pushedTree = some t ∧
      (credsCacheFileName,
        FileContent.plainCreds "https://example.com/repo.git" "tok123"
          "alice") ∈ t ∧
      FileContent.isEncryptedPayload
        (.plainCreds "https://example.com/repo.git" "tok123" "alice") =
        false := by
  refine ⟨_, rfl, ?_, rfl⟩
  decide

end Zenmius
